import Mathlib

/-!
A verification development for the `transmission-wrapper` crate of the
distpac package distribution system.  The Rust sources are embedded
shallowly: string manipulation is modelled on `List Char`, the `f32` byte
magnitude is abstracted to `ℚ` with exact arithmetic, external I/O
(`Entry::from_id`, process-table scans, spawning) is supplied through
explicit oracle parameters, and the `&mut self` reconciliation loop of
`Transmission::update_entries` becomes explicit state passing that also
returns the state left behind by an aborted call.
-/

namespace Distpac

/-- The whitespace predicate used by `str::trim` and `str::split_whitespace`
(ASCII fragment of Unicode `White_Space`). -/
def isWs (c : Char) : Bool :=
  c = ' ' ∨ c = '\t' ∨ c = '\n' ∨ c = '\r'

/-- Split a character list at every occurrence of a one-character separator. -/
def splitChar (sep : Char) : List Char → List (List Char)
  | [] => [[]]
  | c :: cs =>
    let rest := splitChar sep cs
    if c = sep then [] :: rest
    else
      match rest with
      | [] => [[c]]
      | p :: ps => (c :: p) :: ps

/-- Split at every non-overlapping occurrence of two consecutive spaces,
scanning left to right: the embedding of `str::split("  ")` as used on
report lines. -/
def split2Sp : List Char → List (List Char)
  | ' ' :: ' ' :: cs => [] :: split2Sp cs
  | c :: cs =>
    match split2Sp cs with
    | [] => [[c]]
    | p :: ps => (c :: p) :: ps
  | [] => [[]]

/-- The embedding of `str::trim`. -/
def trimChars (cs : List Char) : List Char :=
  ((cs.dropWhile isWs).reverse.dropWhile isWs).reverse

/-- The embedding of `str::lines`: split on `'\n'`, drop a final empty
segment, and strip one trailing `'\r'` from each line. -/
def rustLines (s : String) : List String :=
  let parts := splitChar '\n' s.data
  let parts :=
    match parts.getLast? with
    | some [] => parts.dropLast
    | _ => parts
  parts.map fun cs =>
    String.mk
      (match cs.getLast? with
       | some c => if c = '\r' then cs.dropLast else cs
       | none => cs)

/-- Accumulator loop behind `str::split_whitespace`. -/
def splitWsAux : List Char → List Char → List String
  | acc, [] => if acc = [] then [] else [String.mk acc.reverse]
  | acc, c :: cs =>
    if isWs c then
      if acc = [] then splitWsAux [] cs
      else String.mk acc.reverse :: splitWsAux [] cs
    else splitWsAux (c :: acc) cs

/-- The embedding of `str::split_whitespace`: maximal non-whitespace runs,
with no empty tokens. -/
def splitWs (s : String) : List String :=
  splitWsAux [] s.data

/-- Longest leading run of ASCII digits, together with the remainder. -/
def takeDigits : List Char → List Char × List Char
  | [] => ([], [])
  | c :: cs =>
    if c.isDigit then
      let (ds, rest) := takeDigits cs
      (c :: ds, rest)
    else ([], c :: cs)

/-- Numeric value of a digit run. -/
def digitsVal (ds : List Char) : Nat :=
  ds.foldl (fun acc c => 10 * acc + (c.toNat - 48)) 0

/-- Optional exponent suffix `e`/`E`, an optional sign, and digits of a float literal; it
must consume the whole remaining input. -/
def parseExpPart : List Char → Option Int
  | [] => some 0
  | c :: rest =>
    if c = 'e' ∨ c = 'E' then
      let (sgn, rest') : Int × List Char :=
        match rest with
        | '+' :: r => (1, r)
        | '-' :: r => (-1, r)
        | r => (1, r)
      let (ds, rest'') := takeDigits rest'
      if ds = [] ∨ rest'' ≠ [] then none else some (sgn * (digitsVal ds : Int))
    else none

/-- The lexical part of the float grammar recognized by `f32::from_str`,
restricted to finite decimal literals (the `inf`/`NaN` spellings lie outside
the model): optional sign, integer digits, optional fraction, optional
exponent, at least one mantissa digit.  Returns the sign bit, the integer and
fraction digit values, the fraction length, and the exponent. -/
def floatLex (s : String) : Option (Bool × Nat × Nat × Nat × Int) :=
  let cs := s.data
  let (neg, cs) : Bool × List Char :=
    match cs with
    | '+' :: r => (false, r)
    | '-' :: r => (true, r)
    | r => (false, r)
  let (intDs, cs) := takeDigits cs
  let (fracDs, cs) :=
    match cs with
    | '.' :: r => takeDigits r
    | r => ([], r)
  match parseExpPart cs with
  | none => none
  | some e =>
    if intDs = [] ∧ fracDs = [] then none
    else some (neg, digitsVal intDs, digitsVal fracDs, fracDs.length, e)

/-- The embedding of `f32::from_str` restricted to finite decimal literals,
with exact rational arithmetic in place of binary floating point. -/
def parseFloat (s : String) : Option ℚ :=
  match floatLex s with
  | none => none
  | some (neg, intVal, fracVal, fracLen, e) =>
    some ((if neg then (-1 : ℚ) else 1) * ((intVal : ℚ) + (fracVal : ℚ) / (10 : ℚ) ^ fracLen)
      * (10 : ℚ) ^ e)

/-- The embedding of `u64::from_str`: optional `+`, one or more ASCII digits,
value below `2^64`. -/
def parseU64 (s : String) : Option Nat :=
  let cs :=
    match s.data with
    | '+' :: r => r
    | r => r
  if cs = [] ∨ ¬ (cs.all Char.isDigit) then none
  else if digitsVal cs < 2 ^ 64 then some (digitsVal cs) else none

/-- Modelled from the spec: the crate error type lives in `error.rs`, which is
not among the provided sources.  The taxonomy of §7 together with the
variants named in `lib.rs` and `bytes.rs` gives these cases; `IoFailure`
stands for the I/O-level cases. -/
inductive Error where
  | InvalidEntryFormat
  | InvalidByteFormat
  | IoFailure
deriving DecidableEq, Repr

/-- `Bytes(pub f32)`, the canonical byte quantity, with the magnitude
abstracted to `ℚ`. -/
structure Bytes where
  val : ℚ
deriving DecidableEq, Repr

/-- `Bytes::zero`. -/
def Bytes.zero : Bytes := ⟨0⟩

/-- The token-level body of `<Bytes as FromStr>::from_str`: the
`split_whitespace` iterator of the source becomes a token list, the two
`next()` calls become the head and the head of the tail. -/
def Bytes.fromTokens : List String → Except Error Bytes
  | [] => .error Error.InvalidByteFormat
  | amountTok :: rest =>
    match parseFloat amountTok with
    | none => .error Error.InvalidByteFormat
    | some amount =>
      let u := rest.headD "B"
      if u = "B" then .ok ⟨amount * 10 ^ 1⟩
      else if u = "kB" then .ok ⟨amount * 10 ^ 3⟩
      else if u = "MB" then .ok ⟨amount * 10 ^ 6⟩
      else if u = "GB" then .ok ⟨amount * 10 ^ 9⟩
      else .error Error.InvalidByteFormat

/-- The embedding of `<Bytes as FromStr>::from_str`. -/
def Bytes.from_str (s : String) : Except Error Bytes :=
  Bytes.fromTokens (splitWs s)

/-- Modelled from the spec: the closed status enumeration of §2 lives in
`entry.rs`, which is not among the provided sources.  Variants follow the
states listed there; `Errored` stands for the error state to avoid clashing
with the `Error` type. -/
inductive Status where
  | Stopped
  | Checking
  | Downloading
  | Seeding
  | Queued
  | Verifying
  | Errored
deriving DecidableEq, Repr

/-- Modelled from the spec: parsing one status token (`entry.rs` is not among
the provided sources); unrecognized tokens are a hard failure (§3),
classified with the entry-format errors (§7). -/
def Status.from_str (s : String) : Except Error Status :=
  if s = "Stopped" then .ok .Stopped
  else if s = "Checking" then .ok .Checking
  else if s = "Downloading" then .ok .Downloading
  else if s = "Seeding" then .ok .Seeding
  else if s = "Queued" then .ok .Queued
  else if s = "Verifying" then .ok .Verifying
  else if s = "Error" then .ok .Errored
  else .error Error.InvalidEntryFormat

/-- Modelled from the spec: the transfer entry record of §3 lives in
`entry.rs`, which is not among the provided sources.  Identifier, display
name, status, bytes downloaded, and the derived completion flag. -/
structure Entry where
  id : Nat
  name : String
  status : Status
  downloaded : Bytes
  finished : Bool
deriving DecidableEq, Repr

/-- Modelled from the spec: `Entry::completed(id, downloaded, status, name)`
builds an already-finished entry (argument order as at the call site in
`lib.rs`). -/
def Entry.completed (id : Nat) (downloaded : Bytes) (status : Status)
    (name : String) : Entry :=
  ⟨id, name, status, downloaded, true⟩

/-- `TransmissionOpts`, with the download directory abstracted to a string. -/
structure TransmissionOpts where
  download_dir : Option String := none
deriving DecidableEq, Repr

/-- The `Transmission` manager state: its entry list and options. -/
structure Transmission where
  entries : List Entry
  download_dir : Option String
deriving DecidableEq, Repr

/-- `Transmission::empty`. -/
def Transmission.empty (opts : TransmissionOpts) : Transmission :=
  ⟨[], opts.download_dir⟩

/-- `Transmission::start`, with the external world supplied explicitly:
whether a process with the daemon's well-known name is already running, and
the outcome a spawn would have.  The boolean in the result records whether a
process was spawned. -/
def Transmission.start (opts : TransmissionOpts) (isRunning : Bool)
    (spawnOutcome : Except Error Unit) : Except Error (Bool × Transmission) :=
  if isRunning then .ok (false, Transmission.empty opts)
  else
    match spawnOutcome with
    | .error e => .error e
    | .ok _ => .ok (true, Transmission.empty opts)

/-- `Transmission::get_mut_by_id` as a pure lookup: first entry bearing the
identifier. -/
def findById (entries : List Entry) (id : Nat) : Option Entry :=
  entries.find? fun entry => entry.id = id

/-- Writing through the mutable reference `get_mut_by_id` returns: replace
the first entry bearing the identifier. -/
def replaceFirstById (id : Nat) (e : Entry) : List Entry → List Entry
  | [] => []
  | e₀ :: es => if e₀.id = id then e :: es else e₀ :: replaceFirstById id e es

/-- The field split of one report line in `update_entries`: split on two
consecutive spaces, trim each piece, drop empty pieces. -/
def linePieces (line : String) : List String :=
  (split2Sp line.data).filterMap fun piece =>
    let piece := trimChars piece
    if piece = [] then none else some (String.mk piece)

/-- The summary-marker test of the `update_entries` loop:
`line.trim().starts_with("Sum:")`. -/
def isSumLine (line : String) : Bool :=
  "Sum:".data.isPrefixOf (trimChars line.data)

/-- The body of the `update_entries` loop after the field split: parse the
fields, then update the entry bearing the identifier or append a new one.
`from_id` stands for `Entry::from_id`, the daemon lookup (external I/O),
supplied as an oracle. -/
def processPieces (from_id : Nat → Except Error Entry) (entries : List Entry)
    (pieces : List String) : Except Error (List Entry) :=
  if pieces.length ≠ 9 then .error Error.InvalidEntryFormat
  else
    match parseU64 (pieces.getD 0 "") with
    | none => .error Error.InvalidEntryFormat
    | some id =>
      let percentage := if pieces.getD 1 "" = "n/a" then "0%" else pieces.getD 1 ""
      let downloadedRes : Except Error Bytes :=
        if pieces.getD 2 "" = "None" then .ok ⟨0⟩
        else Bytes.from_str (pieces.getD 2 "")
      match downloadedRes with
      | .error e => .error e
      | .ok downloaded =>
        match Status.from_str (pieces.getD 7 "") with
        | .error e => .error e
        | .ok status =>
          let name := pieces.getD 8 ""
          match findById entries id with
          | some _ =>
            match from_id id with
            | .error e => .error e
            | .ok fresh => .ok (replaceFirstById id fresh entries)
          | none =>
            if percentage = "100%" then
              .ok (entries ++ [Entry.completed id downloaded status name])
            else
              match from_id id with
              | .error e => .error e
              | .ok fresh => .ok (entries ++ [fresh])

/-- One iteration of the `update_entries` loop on one line. -/
def processLine (from_id : Nat → Except Error Entry) (entries : List Entry)
    (line : String) : Except Error (List Entry) :=
  processPieces from_id entries (linePieces line)

/-- The `update_entries` loop over the lines after the header.  The result
pairs the entry list as left in place by the `&mut self` loop with the
error, if any, that aborted it. -/
def updateEntriesGo (from_id : Nat → Except Error Entry) :
    List Entry → List String → List Entry × Option Error
  | entries, [] => (entries, none)
  | entries, line :: rest =>
    if isSumLine line then (entries, none)
    else
      match processLine from_id entries line with
      | .error e => (entries, some e)
      | .ok entries' => updateEntriesGo from_id entries' rest

/-- `Transmission::update_entries`: skip the header line, then run the loop.
The first component is the manager as left by the call (mutations made before
an error persist), the second the returned error, if any. -/
def update_entries (from_id : Nat → Except Error Entry) (t : Transmission)
    (s : String) : Transmission × Option Error :=
  let res := updateEntriesGo from_id t.entries ((rustLines s).drop 1)
  ({ t with entries := res.1 }, res.2)

/-- A sequence of `update_entries` calls threading the manager state; each
call leaves its state behind whether or not it errored. -/
def runReports (from_id : Nat → Except Error Entry) (t : Transmission) :
    List String → Transmission
  | [] => t
  | s :: rest => runReports from_id (update_entries from_id t s).1 rest

section Claims

/-- C2: a two-token input with a numeric magnitude and a unit in
{B, kB, MB, GB} parses to the magnitude times 10^1, 10^3, 10^6, 10^9
respectively; a lone numeric token defaults to the B multiplier 10^1; a
missing or non-numeric magnitude, or an unrecognized unit token, yields
`InvalidByteFormat`. -/
theorem bytes_parse_spec (s : String) :
    (∀ a n, splitWs s = [a] → parseFloat a = some n →
      Bytes.from_str s = .ok ⟨n * 10 ^ 1⟩) ∧
    (∀ a u n, splitWs s = [a, u] → parseFloat a = some n →
      (u = "B" → Bytes.from_str s = .ok ⟨n * 10 ^ 1⟩) ∧
      (u = "kB" → Bytes.from_str s = .ok ⟨n * 10 ^ 3⟩) ∧
      (u = "MB" → Bytes.from_str s = .ok ⟨n * 10 ^ 6⟩) ∧
      (u = "GB" → Bytes.from_str s = .ok ⟨n * 10 ^ 9⟩) ∧
      (u ≠ "B" → u ≠ "kB" → u ≠ "MB" → u ≠ "GB" →
        Bytes.from_str s = .error Error.InvalidByteFormat)) ∧
    (splitWs s = [] → Bytes.from_str s = .error Error.InvalidByteFormat) ∧
    (∀ a rest, splitWs s = a :: rest → parseFloat a = none →
      Bytes.from_str s = .error Error.InvalidByteFormat) := by
  refine ⟨?_, ?_, ?_, ?_⟩
  · intro a n hs hn
    rw [Bytes.from_str, hs]
    simp [Bytes.fromTokens, hn]
  · intro a u n hs hn
    rw [Bytes.from_str, hs]
    refine ⟨?_, ?_, ?_, ?_, ?_⟩ <;> intro h1
    · subst h1; simp [Bytes.fromTokens, hn]
    · subst h1; simp [Bytes.fromTokens, hn]
    · subst h1; simp [Bytes.fromTokens, hn]
    · subst h1; simp [Bytes.fromTokens, hn]
    · intro h2 h3 h4
      simp [Bytes.fromTokens, hn, h1, h2, h3, h4]
  · intro hs
    rw [Bytes.from_str, hs]
    rfl
  · intro a rest hs hn
    rw [Bytes.from_str, hs]
    simp [Bytes.fromTokens, hn]

/-- Witness for C2 at the input "2 kB". -/
theorem bytes_parse_spec_witness :
    Bytes.from_str "2 kB" = .ok ⟨2 * 10 ^ 3⟩ :=
  ((bytes_parse_spec "2 kB").2.1 "2" "kB" 2 (by decide)
    (by simp [parseFloat, show floatLex "2" = some (false, 2, 0, 0, 0) from by decide])).2.1 rfl

/-- C3 counterexample: `Bytes::from_str` accepts a negative magnitude, so a
successful parse can carry a negative byte value. -/
theorem bytes_parse_negative_counterexample :
    Bytes.from_str "-5 MB" = .ok ⟨-5000000⟩ ∧ (Bytes.mk (-5000000)).val < 0 := by
  constructor
  · rw [Bytes.from_str, show splitWs "-5 MB" = ["-5", "MB"] from by decide]
    simp [Bytes.fromTokens, parseFloat,
      show floatLex "-5" = some (true, 5, 0, 0, 0) from by decide]
    norm_num
  · norm_num

/-- C3 (amended): a successful parse whose magnitude token denotes a
non-negative number yields a non-negative byte value (the parser itself does
not reject negative magnitudes). -/
theorem bytes_parse_nonneg (s a : String) (rest : List String) (n : ℚ) (b : Bytes)
    (hs : splitWs s = a :: rest) (hn : parseFloat a = some n) (hpos : 0 ≤ n)
    (hok : Bytes.from_str s = .ok b) : 0 ≤ b.val := by
  rw [Bytes.from_str, hs] at hok
  simp only [Bytes.fromTokens, hn] at hok
  by_cases h1 : rest.headD "B" = "B"
  · rw [if_pos h1] at hok
    cases hok
    exact mul_nonneg hpos (by positivity)
  rw [if_neg h1] at hok
  by_cases h2 : rest.headD "B" = "kB"
  · rw [if_pos h2] at hok
    cases hok
    exact mul_nonneg hpos (by positivity)
  rw [if_neg h2] at hok
  by_cases h3 : rest.headD "B" = "MB"
  · rw [if_pos h3] at hok
    cases hok
    exact mul_nonneg hpos (by positivity)
  rw [if_neg h3] at hok
  by_cases h4 : rest.headD "B" = "GB"
  · rw [if_pos h4] at hok
    cases hok
    exact mul_nonneg hpos (by positivity)
  rw [if_neg h4] at hok
  exact absurd hok (by simp)

/-- Witness for C3 (amended) at the input "0". -/
theorem bytes_parse_nonneg_witness :
    Bytes.from_str "0" = .ok ⟨0⟩ ∧ 0 ≤ (Bytes.mk 0).val := by
  have h : Bytes.from_str "0" = .ok ⟨0⟩ := by
    rw [Bytes.from_str, show splitWs "0" = ["0"] from by decide]
    simp [Bytes.fromTokens, parseFloat,
      show floatLex "0" = some (false, 0, 0, 0, 0) from by decide]
  exact ⟨h, bytes_parse_nonneg "0" "0" [] 0 ⟨0⟩ (by decide)
    (by simp [parseFloat, show floatLex "0" = some (false, 0, 0, 0, 0) from by decide])
    le_rfl h⟩

/-- C10: every whitespace token after the second is silently ignored: when
the first token is numeric and the second a recognized unit, the parse
succeeds with the same value whatever trailing tokens follow. -/
theorem bytes_parse_ignores_trailing (s₁ s₂ a u : String) (rest : List String) (n : ℚ)
    (h₁ : splitWs s₁ = a :: u :: rest) (h₂ : splitWs s₂ = [a, u])
    (hn : parseFloat a = some n) (hu : u ∈ ["B", "kB", "MB", "GB"]) :
    ∃ b, Bytes.from_str s₁ = .ok b ∧ Bytes.from_str s₂ = .ok b := by
  rw [Bytes.from_str, h₁, Bytes.from_str, h₂]
  simp only [List.mem_cons, List.mem_singleton, List.not_mem_nil, or_false] at hu
  rcases hu with h | h | h | h <;> subst h
  · exact ⟨⟨n * 10 ^ 1⟩, by simp [Bytes.fromTokens, hn], by simp [Bytes.fromTokens, hn]⟩
  · exact ⟨⟨n * 10 ^ 3⟩, by simp [Bytes.fromTokens, hn], by simp [Bytes.fromTokens, hn]⟩
  · exact ⟨⟨n * 10 ^ 6⟩, by simp [Bytes.fromTokens, hn], by simp [Bytes.fromTokens, hn]⟩
  · exact ⟨⟨n * 10 ^ 9⟩, by simp [Bytes.fromTokens, hn], by simp [Bytes.fromTokens, hn]⟩

/-- Witness for C10 at "786 MB garbage" versus "786 MB". -/
theorem bytes_parse_ignores_trailing_witness :
    ∃ b, Bytes.from_str "786 MB garbage" = .ok b ∧ Bytes.from_str "786 MB" = .ok b :=
  bytes_parse_ignores_trailing "786 MB garbage" "786 MB" "786" "MB" ["garbage"] 786
    (by decide) (by decide)
    (by simp [parseFloat, show floatLex "786" = some (false, 786, 0, 0, 0) from by decide])
    (by decide)

/-- C9: `start` with the daemon already running spawns nothing and returns
successfully, and every successful `start` returns a manager with an empty
entry set. -/
theorem start_idempotent (opts : TransmissionOpts) (spawnOutcome : Except Error Unit) :
    Transmission.start opts true spawnOutcome = .ok (false, Transmission.empty opts) ∧
    (∀ isRunning spawned t,
      Transmission.start opts isRunning spawnOutcome = .ok (spawned, t) →
      t.entries = []) := by
  constructor
  · simp [Transmission.start]
  · intro isRunning spawned t h
    unfold Transmission.start at h
    split at h
    · cases h; rfl
    · split at h
      · cases h
      · cases h; rfl

/-- Witness for C9 with default options and a successful spawn outcome. -/
theorem start_idempotent_witness :
    Transmission.start ⟨none⟩ true (.ok ()) = .ok (false, Transmission.empty ⟨none⟩) ∧
    (Transmission.empty ⟨none⟩).entries = [] :=
  ⟨(start_idempotent ⟨none⟩ (.ok ())).1,
   (start_idempotent ⟨none⟩ (.ok ())).2 true false (Transmission.empty ⟨none⟩)
     (start_idempotent ⟨none⟩ (.ok ())).1⟩

/-- When every line of a prefix is neither a summary marker nor a parse
failure, the loop runs it to completion and continues on the remainder from
the state it produced. -/
theorem updateEntriesGo_append (from_id : Nat → Except Error Entry)
    (pre suffix : List String) (entries es : List Entry)
    (hnosum : ∀ l ∈ pre, isSumLine l = false)
    (hpre : updateEntriesGo from_id entries pre = (es, none)) :
    updateEntriesGo from_id entries (pre ++ suffix) =
      updateEntriesGo from_id es suffix := by
  induction pre generalizing entries with
  | nil =>
    cases hpre
    rfl
  | cons l pre ih =>
    have hl : isSumLine l = false := hnosum l (List.mem_cons_self l pre)
    have hstep : ∀ rest, updateEntriesGo from_id entries (l :: rest) =
        match processLine from_id entries l with
        | .error e => (entries, some e)
        | .ok entries' => updateEntriesGo from_id entries' rest := by
      intro rest
      simp only [updateEntriesGo, hl, Bool.false_eq_true, if_false]
    cases hpl : processLine from_id entries l with
    | error e =>
      rw [hstep pre, hpl] at hpre
      simp at hpre
    | ok entries' =>
      rw [hstep pre, hpl] at hpre
      simp only at hpre
      rw [List.cons_append, hstep (pre ++ suffix), hpl]
      simp only
      exact ih entries' (fun x hx => hnosum x (List.mem_cons_of_mem l hx)) hpre

/-- C1 counterexample: a well-formed 100%-line followed by a malformed line
yields the `InvalidEntryFormat` failure, yet the entry from the earlier line
has already been added — the entry set is not left as it was before the
call. -/
theorem update_entries_retains_earlier_lines_counterexample :
    (update_entries (fun _ => .error Error.IoFailure) ⟨[], none⟩
        "hdr\n1  100%  None  a  b  c  d  Seeding  foo\nbad").2 =
      some Error.InvalidEntryFormat ∧
    (update_entries (fun _ => .error Error.IoFailure) ⟨[], none⟩
        "hdr\n1  100%  None  a  b  c  d  Seeding  foo\nbad").1.entries ≠ [] := by
  decide

/-- C1 (amended): a non-summary line whose double-space field count is not 9
aborts the call with `InvalidEntryFormat` at that line: nothing at or after
it is processed, and the entry set is left exactly as the preceding lines of
the same call produced it (unchanged when the malformed line is the first
one processed). -/
theorem update_entries_malformed_aborts (from_id : Nat → Except Error Entry)
    (t : Transmission) (s line : String) (pre rest : List String) (es : List Entry)
    (hs : (rustLines s).drop 1 = pre ++ line :: rest)
    (hnosum : ∀ l ∈ pre, isSumLine l = false)
    (hpre : updateEntriesGo from_id t.entries pre = (es, none))
    (hline : isSumLine line = false)
    (hlen : (linePieces line).length ≠ 9) :
    update_entries from_id t s = ({ t with entries := es }, some Error.InvalidEntryFormat) := by
  unfold update_entries
  rw [hs, updateEntriesGo_append from_id pre (line :: rest) t.entries es hnosum hpre]
  unfold updateEntriesGo
  rw [hline]
  simp only [Bool.false_eq_true, if_false]
  rw [processLine, processPieces, if_pos hlen]

/-- Witness for C1 (amended): a malformed line after one well-formed line. -/
theorem update_entries_malformed_aborts_witness :
    update_entries (fun _ => .error Error.IoFailure) ⟨[], none⟩
        "hdr\n1  100%  None  a  b  c  d  Seeding  foo\nbad" =
      (⟨[Entry.completed 1 ⟨0⟩ .Seeding "foo"], none⟩, some Error.InvalidEntryFormat) :=
  update_entries_malformed_aborts (fun _ => .error Error.IoFailure) ⟨[], none⟩
    "hdr\n1  100%  None  a  b  c  d  Seeding  foo\nbad" "bad"
    ["1  100%  None  a  b  c  d  Seeding  foo"] [] [Entry.completed 1 ⟨0⟩ .Seeding "foo"]
    (by decide) (by decide) (by decide) (by decide) (by decide)

/-- The loop gives the same result on two line lists sharing a common prefix
up to a summary-marker line: nothing at or after the marker matters. -/
theorem updateEntriesGo_stops_at_sum (from_id : Nat → Except Error Entry)
    (m : String) (hm : isSumLine m = true) (pre t₁ t₂ : List String) :
    ∀ entries, updateEntriesGo from_id entries (pre ++ m :: t₁) =
      updateEntriesGo from_id entries (pre ++ m :: t₂) := by
  induction pre with
  | nil =>
    intro entries
    simp only [List.nil_append]
    unfold updateEntriesGo
    rw [hm]
    simp
  | cons l pre ih =>
    intro entries
    simp only [List.cons_append]
    unfold updateEntriesGo
    cases hsl : isSumLine l
    · simp only [Bool.false_eq_true, if_false]
      cases hpl : processLine from_id entries l with
      | error e => rfl
      | ok entries' => exact ih entries'
    · rfl

/-- C7: `update_entries` never looks at the header line and stops at the
first line whose trimmed content starts with "Sum:": two reports that agree
on the lines after the header up to and including such a marker give
identical results, whatever their headers and whatever follows the marker. -/
theorem update_entries_stops_at_sum (from_id : Nat → Except Error Entry)
    (t : Transmission) (s₁ s₂ m : String) (pre t₁ t₂ : List String)
    (h₁ : (rustLines s₁).drop 1 = pre ++ m :: t₁)
    (h₂ : (rustLines s₂).drop 1 = pre ++ m :: t₂)
    (hm : isSumLine m = true) :
    update_entries from_id t s₁ = update_entries from_id t s₂ := by
  unfold update_entries
  rw [h₁, h₂, updateEntriesGo_stops_at_sum from_id m hm pre t₁ t₂ t.entries]

/-- Witness for C7: different headers and different post-marker junk. -/
theorem update_entries_stops_at_sum_witness :
    update_entries (fun _ => .error Error.IoFailure) ⟨[], none⟩
        "hdr\n1  100%  None  a  b  c  d  Seeding  foo\nSum: 786\njunk" =
      update_entries (fun _ => .error Error.IoFailure) ⟨[], none⟩
        "other header\n1  100%  None  a  b  c  d  Seeding  foo\nSum: 786" :=
  update_entries_stops_at_sum (fun _ => .error Error.IoFailure) ⟨[], none⟩
    "hdr\n1  100%  None  a  b  c  d  Seeding  foo\nSum: 786\njunk"
    "other header\n1  100%  None  a  b  c  d  Seeding  foo\nSum: 786"
    "Sum: 786" ["1  100%  None  a  b  c  d  Seeding  foo"] ["junk"] []
    (by decide) (by decide) (by decide)


/-- The quantity parser maps the literal "0" to zero bytes. -/
theorem bytes_from_str_zero : Bytes.from_str "0" = .ok ⟨0⟩ := by
  rw [Bytes.from_str, show splitWs "0" = ["0"] from by decide]
  simp [Bytes.fromTokens, parseFloat,
    show floatLex "0" = some (false, 0, 0, 0, 0) from by decide]

/-- C4: on a well-formed 9-field line, field 0 is the integer identifier and
its parse failure fails the whole call; a percentage field of "n/a" behaves
exactly as "0%"; a downloaded field of "None" behaves exactly as the
zero-byte quantity "0", any other value going through the quantity parser
whose failure propagates; a status field whose token is unrecognized
propagates that failure; and in the direct-insertion branch field 8 is taken
verbatim as the display name. -/
theorem process_fields (from_id : Nat → Except Error Entry) (entries : List Entry)
    (f0 f1 f2 f3 f4 f5 f6 f7 f8 : String) :
    (parseU64 f0 = none →
      processPieces from_id entries [f0, f1, f2, f3, f4, f5, f6, f7, f8] =
        .error Error.InvalidEntryFormat) ∧
    (processPieces from_id entries [f0, "n/a", f2, f3, f4, f5, f6, f7, f8] =
      processPieces from_id entries [f0, "0%", f2, f3, f4, f5, f6, f7, f8]) ∧
    (processPieces from_id entries [f0, f1, "None", f3, f4, f5, f6, f7, f8] =
      processPieces from_id entries [f0, f1, "0", f3, f4, f5, f6, f7, f8]) ∧
    (∀ id e, parseU64 f0 = some id → f2 ≠ "None" → Bytes.from_str f2 = .error e →
      processPieces from_id entries [f0, f1, f2, f3, f4, f5, f6, f7, f8] = .error e) ∧
    (∀ id b e, parseU64 f0 = some id →
      (if f2 = "None" then Except.ok (⟨0⟩ : Bytes) else Bytes.from_str f2) = .ok b →
      Status.from_str f7 = .error e →
      processPieces from_id entries [f0, f1, f2, f3, f4, f5, f6, f7, f8] = .error e) ∧
    (∀ id b st, parseU64 f0 = some id →
      (if f2 = "None" then Except.ok (⟨0⟩ : Bytes) else Bytes.from_str f2) = .ok b →
      Status.from_str f7 = .ok st → findById entries id = none → f1 = "100%" →
      processPieces from_id entries [f0, f1, f2, f3, f4, f5, f6, f7, f8] =
        .ok (entries ++ [Entry.completed id b st f8])) := by
  refine ⟨?_, ?_, ?_, ?_, ?_, ?_⟩
  · intro h
    simp [processPieces, h]
  · simp only [processPieces]
    simp
  · simp only [processPieces]
    simp [bytes_from_str_zero]
  · intro id e hid hne herr
    simp [processPieces, hid, hne, herr]
  · intro id b e hid hb herr
    simp [processPieces, hid, hb, herr]
  · intro id b st hid hb hst hfind h100
    subst h100
    simp [processPieces, hid, hb, hst, hfind]

/-- C5: a line with an unknown identifier and percentage "100%" appends the
completed entry built from the line itself, for every lookup oracle — no
identifier-based lookup is consulted; with percentage other than "100%", the
appended record is exactly what the identifier lookup returns, and a lookup
failure fails the call. -/
theorem process_new_id (entries : List Entry)
    (f0 f1 f2 f3 f4 f5 f6 f7 f8 : String) (id : Nat) (b : Bytes) (st : Status)
    (hid : parseU64 f0 = some id)
    (hb : (if f2 = "None" then Except.ok (⟨0⟩ : Bytes) else Bytes.from_str f2) = .ok b)
    (hst : Status.from_str f7 = .ok st)
    (hnew : findById entries id = none) :
    (f1 = "100%" → ∀ from_id,
      processPieces from_id entries [f0, f1, f2, f3, f4, f5, f6, f7, f8] =
        .ok (entries ++ [Entry.completed id b st f8])) ∧
    (f1 ≠ "100%" → ∀ from_id,
      processPieces from_id entries [f0, f1, f2, f3, f4, f5, f6, f7, f8] =
        match from_id id with
        | .error e => .error e
        | .ok fresh => .ok (entries ++ [fresh])) := by
  constructor
  · intro h100 from_id
    subst h100
    simp [processPieces, hid, hb, hst, hnew]
  · intro h100 from_id
    have hpct : (if f1 = "n/a" then "0%" else f1) ≠ "100%" := by
      by_cases hna : f1 = "n/a"
      · rw [if_pos hna]; decide
      · rw [if_neg hna]; exact h100
    simp [processPieces, hid, hb, hst, hnew, hpct]

/-- C6: a line whose identifier is already known replaces the stored record
outright with the record freshly returned by the identifier lookup; nothing
of the old record survives, there being no per-field merge. -/
theorem process_known_id (from_id : Nat → Except Error Entry) (entries : List Entry)
    (f0 f1 f2 f3 f4 f5 f6 f7 f8 : String) (id : Nat) (b : Bytes) (st : Status)
    (e₀ fresh : Entry)
    (hid : parseU64 f0 = some id)
    (hb : (if f2 = "None" then Except.ok (⟨0⟩ : Bytes) else Bytes.from_str f2) = .ok b)
    (hst : Status.from_str f7 = .ok st)
    (hfound : findById entries id = some e₀)
    (hfresh : from_id id = .ok fresh) :
    processPieces from_id entries [f0, f1, f2, f3, f4, f5, f6, f7, f8] =
      .ok (replaceFirstById id fresh entries) := by
  simp [processPieces, hid, hb, hst, hfound, hfresh]


/-- Witness for C4 on concrete lines covering each conjunct. -/
theorem process_fields_witness :
    (processPieces (fun _ => .error Error.IoFailure) []
        ["x", "100%", "None", "a", "b", "c", "d", "Seeding", "nm"] =
      .error Error.InvalidEntryFormat) ∧
    (processPieces (fun _ => .error Error.IoFailure) []
        ["1", "n/a", "None", "a", "b", "c", "d", "Seeding", "nm"] =
      processPieces (fun _ => .error Error.IoFailure) []
        ["1", "0%", "None", "a", "b", "c", "d", "Seeding", "nm"]) ∧
    (processPieces (fun _ => .error Error.IoFailure) []
        ["1", "50%", "None", "a", "b", "c", "d", "Seeding", "nm"] =
      processPieces (fun _ => .error Error.IoFailure) []
        ["1", "50%", "0", "a", "b", "c", "d", "Seeding", "nm"]) ∧
    (processPieces (fun _ => .error Error.IoFailure) []
        ["1", "100%", "zz", "a", "b", "c", "d", "Seeding", "nm"] =
      .error Error.InvalidByteFormat) ∧
    (processPieces (fun _ => .error Error.IoFailure) []
        ["1", "100%", "None", "a", "b", "c", "d", "Junk", "nm"] =
      .error Error.InvalidEntryFormat) ∧
    (processPieces (fun _ => .error Error.IoFailure) []
        ["1", "100%", "None", "a", "b", "c", "d", "Seeding", "nm"] =
      .ok ([] ++ [Entry.completed 1 ⟨0⟩ .Seeding "nm"])) :=
  ⟨(process_fields (fun _ => .error Error.IoFailure) []
      "x" "100%" "None" "a" "b" "c" "d" "Seeding" "nm").1 (by decide),
   (process_fields (fun _ => .error Error.IoFailure) []
      "1" "x" "None" "a" "b" "c" "d" "Seeding" "nm").2.1,
   (process_fields (fun _ => .error Error.IoFailure) []
      "1" "50%" "x" "a" "b" "c" "d" "Seeding" "nm").2.2.1,
   (process_fields (fun _ => .error Error.IoFailure) []
      "1" "100%" "zz" "a" "b" "c" "d" "Seeding" "nm").2.2.2.1 1 Error.InvalidByteFormat
      (by decide) (by decide) rfl,
   (process_fields (fun _ => .error Error.IoFailure) []
      "1" "100%" "None" "a" "b" "c" "d" "Junk" "nm").2.2.2.2.1 1 ⟨0⟩ Error.InvalidEntryFormat
      (by decide) rfl rfl,
   (process_fields (fun _ => .error Error.IoFailure) []
      "1" "100%" "None" "a" "b" "c" "d" "Seeding" "nm").2.2.2.2.2 1 ⟨0⟩ Status.Seeding
      (by decide) rfl rfl (by decide) rfl⟩

/-- Witness for C5 on one new-id 100% line (any oracle, here an error one)
and one new-id 50% line whose oracle returns a fresh record. -/
theorem process_new_id_witness :
    (processPieces (fun _ => .error Error.IoFailure) []
        ["1", "100%", "None", "a", "b", "c", "d", "Seeding", "nm"] =
      .ok ([] ++ [Entry.completed 1 ⟨0⟩ .Seeding "nm"])) ∧
    (processPieces (fun _ => .ok ⟨1, "fr", .Downloading, ⟨0⟩, false⟩) []
        ["1", "50%", "None", "a", "b", "c", "d", "Seeding", "nm"] =
      .ok ([] ++ [⟨1, "fr", .Downloading, ⟨0⟩, false⟩])) :=
  ⟨(process_new_id [] "1" "100%" "None" "a" "b" "c" "d" "Seeding" "nm" 1 ⟨0⟩ Status.Seeding
      (by decide) rfl rfl rfl).1 rfl _,
   (process_new_id [] "1" "50%" "None" "a" "b" "c" "d" "Seeding" "nm" 1 ⟨0⟩ Status.Seeding
      (by decide) rfl rfl rfl).2 (by decide) _⟩

/-- Witness for C6: a stored record is replaced by the oracle's record. -/
theorem process_known_id_witness :
    processPieces (fun _ => .ok ⟨1, "new", .Seeding, ⟨0⟩, true⟩)
        [⟨1, "old", .Stopped, ⟨0⟩, false⟩]
        ["1", "50%", "None", "a", "b", "c", "d", "Seeding", "nm"] =
      .ok (replaceFirstById 1 ⟨1, "new", .Seeding, ⟨0⟩, true⟩
        [⟨1, "old", .Stopped, ⟨0⟩, false⟩]) :=
  process_known_id (fun _ => .ok ⟨1, "new", .Seeding, ⟨0⟩, true⟩)
    [⟨1, "old", .Stopped, ⟨0⟩, false⟩]
    "1" "50%" "None" "a" "b" "c" "d" "Seeding" "nm" 1 ⟨0⟩ Status.Seeding
    ⟨1, "old", .Stopped, ⟨0⟩, false⟩ ⟨1, "new", .Seeding, ⟨0⟩, true⟩
    (by decide) rfl rfl rfl rfl

/-- Replacing the first entry bearing an identifier by another entry bearing
the same identifier leaves the identifier list unchanged. -/
theorem replaceFirstById_map_id (id : Nat) (e : Entry) (h : e.id = id) :
    ∀ l : List Entry, (replaceFirstById id e l).map Entry.id = l.map Entry.id := by
  intro l
  induction l with
  | nil => rfl
  | cons e₀ es ih =>
    simp only [replaceFirstById]
    by_cases h₀ : e₀.id = id
    · rw [if_pos h₀]
      simp [h, h₀]
    · rw [if_neg h₀]
      simp [ih]

/-- A failed identifier lookup means the identifier occurs nowhere. -/
theorem findById_none_not_mem (entries : List Entry) (id : Nat)
    (h : findById entries id = none) : id ∉ entries.map Entry.id := by
  intro hmem
  rw [List.mem_map] at hmem
  obtain ⟨e, he, hid⟩ := hmem
  rw [findById, List.find?_eq_none] at h
  have := h e he
  simp [hid] at this

/-- One reconciliation step preserves uniqueness of identifiers, provided the
lookup oracle answers a query for an identifier with an entry bearing it. -/
theorem processPieces_nodup (from_id : Nat → Except Error Entry)
    (hor : ∀ i e, from_id i = .ok e → e.id = i)
    (entries : List Entry) (ps : List String) (entries' : List Entry)
    (hnd : (entries.map Entry.id).Nodup)
    (h : processPieces from_id entries ps = .ok entries') :
    (entries'.map Entry.id).Nodup := by
  by_cases hlen : ps.length ≠ 9
  · simp [processPieces, hlen] at h
  cases hid : parseU64 (ps.getD 0 "") with
  | none => simp [processPieces, hlen, List.getD_eq_getElem?_getD ps 0 "" ▸ hid] at h
  | some id =>
  rw [List.getD_eq_getElem?_getD] at hid
  cases hdl : (if ps.getD 2 "" = "None" then Except.ok (⟨0⟩ : Bytes)
      else Bytes.from_str (ps.getD 2 "")) with
  | error e =>
    simp only [List.getD_eq_getElem?_getD] at hdl
    simp [processPieces, hlen, hid, hdl] at h
  | ok downloaded =>
  simp only [List.getD_eq_getElem?_getD] at hdl
  cases hst : Status.from_str (ps.getD 7 "") with
  | error e =>
    simp only [List.getD_eq_getElem?_getD] at hst
    simp [processPieces, hlen, hid, hdl, hst] at h
  | ok st =>
  simp only [List.getD_eq_getElem?_getD] at hst
  cases hfind : findById entries id with
  | some e₀ =>
    cases hfr : from_id id with
    | error e => simp [processPieces, hlen, hid, hdl, hst, hfind, hfr] at h
    | ok fresh =>
      simp [processPieces, hlen, hid, hdl, hst, hfind, hfr] at h
      rw [← h, replaceFirstById_map_id id fresh (hor id fresh hfr) entries]
      exact hnd
  | none =>
    have hnot : id ∉ entries.map Entry.id := findById_none_not_mem entries id hfind
    by_cases hpct : (if ps.getD 1 "" = "n/a" then "0%" else ps.getD 1 "") = "100%"
    · rw [List.getD_eq_getElem?_getD] at hpct
      simp [processPieces, hlen, hid, hdl, hst, hfind, hpct] at h
      rw [← h]
      simp [List.nodup_append, hnd, hnot, Entry.completed]
    · rw [List.getD_eq_getElem?_getD] at hpct
      cases hfr : from_id id with
      | error e => simp [processPieces, hlen, hid, hdl, hst, hfind, hpct, hfr] at h
      | ok fresh =>
        simp [processPieces, hlen, hid, hdl, hst, hfind, hpct, hfr] at h
        rw [← h]
        have hfid : fresh.id = id := hor id fresh hfr
        simp [List.nodup_append, hnd, hfid, hnot]

/-- The reconciliation loop preserves uniqueness of identifiers, also in the
state left behind by an aborted run. -/
theorem updateEntriesGo_nodup (from_id : Nat → Except Error Entry)
    (hor : ∀ i e, from_id i = .ok e → e.id = i) :
    ∀ (lines : List String) (entries : List Entry),
      (entries.map Entry.id).Nodup →
      (((updateEntriesGo from_id entries lines).1).map Entry.id).Nodup := by
  intro lines
  induction lines with
  | nil => intro entries h; exact h
  | cons l rest ih =>
    intro entries h
    unfold updateEntriesGo
    split
    · exact h
    · split
      · exact h
      case _ entries' hpl =>
        exact ih entries' (processPieces_nodup from_id hor entries (linePieces l) entries' h hpl)

/-- Identifier uniqueness is preserved across any sequence of report
applications. -/
theorem runReports_nodup (from_id : Nat → Except Error Entry)
    (hor : ∀ i e, from_id i = .ok e → e.id = i) :
    ∀ (reports : List String) (t : Transmission),
      (t.entries.map Entry.id).Nodup →
      (((runReports from_id t reports).entries).map Entry.id).Nodup := by
  intro reports
  induction reports with
  | nil => intro t h; exact h
  | cons s rest ih =>
    intro t h
    exact ih _ (updateEntriesGo_nodup from_id hor _ t.entries h)

/-- C8: at most one entry per identifier: starting from the empty entry set,
after any sequence of `update_entries` calls (the lookup oracle answering a
query with an entry bearing the queried identifier), no two entries share an
identifier. -/
theorem entry_ids_unique (from_id : Nat → Except Error Entry)
    (hor : ∀ i e, from_id i = .ok e → e.id = i)
    (opts : TransmissionOpts) (reports : List String) :
    (((runReports from_id (Transmission.empty opts) reports).entries).map Entry.id).Nodup :=
  runReports_nodup from_id hor reports (Transmission.empty opts) (by simp [Transmission.empty])

/-- Witness for C8 on a report listing the identifier 1 twice. -/
theorem entry_ids_unique_witness :
    (((runReports (fun i => .ok ⟨i, "w", .Stopped, ⟨0⟩, false⟩) (Transmission.empty ⟨none⟩)
        ["hdr\n1  100%  None  a  b  c  d  Seeding  foo\n1  50%  None  a  b  c  d  Seeding  foo"]).entries).map
      Entry.id).Nodup :=
  entry_ids_unique (fun i => .ok ⟨i, "w", .Stopped, ⟨0⟩, false⟩)
    (fun i e he => by cases he; rfl) ⟨none⟩
    ["hdr\n1  100%  None  a  b  c  d  Seeding  foo\n1  50%  None  a  b  c  d  Seeding  foo"]


end Claims

end Distpac
